import Mathlib

/-
Verification of the URL-shape classification and validation engine of the
MinIO client copy/move command (`checkCopySyntax` and its per-shape helpers
`checkCopySyntaxTypeA` .. `checkCopySyntaxTypeD`).

The Go source performs I/O through external collaborators (`url2Stat`,
`isURLPrefixExists`, `newClientURL`); following the specification, those are
modelled as already-resolved facts carried by a `World` record.  Fatal exits
(`FatalIf`, `console.Fatalf`, `cli.ShowCommandHelpAndExit`) are modelled as a
`Rejected` outcome carrying a reason tag and the human-readable message; the
first fatal encountered terminates the run, which the embedding mirrors by
returning at the first rejection.
-/

set_option autoImplicit false

namespace MC

/-- Go strings are modelled as lists of characters. -/
abbrev Str := List Char

/-- Shorthand turning a Lean string literal into the `Str` model. -/
def str (s : String) : Str := s.data

/-- Resolved kind of a stat-ed entry (`ClientContent.Type` in Go):
a regular file, a directory, or some other mode (symlink, device, ...).
`IsRegular` corresponds to `.file`, `IsDir` to `.dir`. -/
inductive EntryType where
  | file
  | dir
  | other
  deriving DecidableEq, Repr

/-- Result of a successful `url2Stat` call: the kind of the entry together
with the path separator of the resolved client (`c.GetURL().Separator`). -/
structure StatResult where
  typ : EntryType
  sep : Char
  deriving DecidableEq, Repr

/-- The fields of `newClientURL(tgtURL)` that `checkCopySyntax` inspects:
`Host`, `Path` and `Separator`. -/
structure URLInfo where
  host : Str
  path : Str
  sep : Char
  deriving DecidableEq, Repr

/-- Externally-observed facts, per the specification the stat collaborator
resolves every location before classification and validation run.
`stat u = none` models a failing `url2Stat` (the location does not exist or
cannot be accessed); `prefixExists u` models `isURLPrefixExists u false`;
`parseURL` models `newClientURL`. -/
structure World where
  stat : Str → Option StatResult
  prefixExists : Str → Bool
  parseURL : Str → URLInfo

/-- Reason tags for the fatal exits of `checkCopySyntax` and its helpers. -/
inductive Reason where
  /-- fewer than two arguments: `cli.ShowCommandHelpAndExit` -/
  | showHelp
  /-- `console.Fatalf("Unable to validate source %s\n", ...)` in the
  pre-classification source verification loop -/
  | sourceStatFailure
  /-- target URL has a host but no bucket name -/
  | noBucketName
  /-- only one of the two object-retention flags was given -/
  | incompleteRetentionPair
  /-- `guessCopyURLType` did not yield one of the four shapes -/
  | guessTypeFailure
  /-- "Invalid number of source arguments." -/
  | invalidSourceCount
  /-- "Unable to stat source ..." inside a per-shape check -/
  | sourceStatFatal
  /-- a required-file source is not a regular file -/
  | sourceNotRegular
  /-- target exists but is not a folder -/
  | targetNotFolder
  /-- directory source without the `--recursive` flag -/
  | recursiveRequired
  /-- copying or moving a folder into itself -/
  | selfContainment
  /-- `--preserve` on windows -/
  | preserveUnsupported
  deriving DecidableEq, Repr

/-- Outcome of validation: either the operation may proceed, or the run was
terminated by a fatal with the given reason and message. -/
inductive Outcome where
  | accepted
  | rejected (r : Reason) (msg : String)
  deriving DecidableEq, Repr

/-- The accept/reject decision of an outcome, with the message stripped:
`none` means accepted, `some r` means rejected for reason `r`. -/
def Outcome.reason : Outcome → Option Reason
  | .accepted => none
  | .rejected r _ => some r

/-- Go `strings.HasPrefix s p`: does `s` start with `p`? -/
def strStartsWith : Str → Str → Bool
  | _, [] => true
  | [], _ :: _ => false
  | a :: s, b :: p => a == b && strStartsWith s p

/-- Go `strings.HasSuffix s suf`: does `s` end with `suf`? -/
def strEndsWith (s suf : Str) : Bool :=
  strStartsWith s.reverse suf.reverse

/-- Modelled from the spec: `isURLContains` is repository code not under
`src/` (only its call site in `checkCopySyntaxTypeC` is).  Per §4.3 of the
specification it normalizes both paths by ensuring a trailing separator and
returns true iff the descendant path, so normalized, begins with the ancestor
path, so normalized. -/
def isURLContains (srcURL tgtURL sep : Str) : Bool :=
  let s := if strEndsWith srcURL sep then srcURL else srcURL ++ sep
  let t := if strEndsWith tgtURL sep then tgtURL else tgtURL ++ sep
  strStartsWith t s

/-- The shape tags used by `checkCopySyntax`: the four operation shapes plus
the defensive `invalid` value its `default:` switch arm guards against.
`typeA` is FileToFile, `typeB` FileToFolder, `typeC` TreeToFolder and
`typeD` ManyToFolder. -/
inductive copyURLsType where
  | typeA
  | typeB
  | typeC
  | typeD
  | invalid
  deriving DecidableEq, Repr

/-- Modelled from the spec: `guessCopyURLType` is repository code not under
`src/` (only its call site is).  Per §4.1 of the specification: more than one
source yields ManyToFolder; a single source that is a directory or missing
yields TreeToFolder; a single file source yields FileToFolder exactly when
the target already exists and is a folder, and FileToFile otherwise.
Classification is a pure function of source count, source kind and target
kind; per the specification it has no error outcome, so the `invalid` tag is
never produced (the `isRecursive` argument is received, as at the call site,
but the spec classifier does not consult it). -/
def guessCopyURLType (w : World) (sourceURLs : List Str) (targetURL : Str)
    (isRecursive : Bool) : copyURLsType :=
  match sourceURLs with
  | [sourceURL] =>
    match w.stat sourceURL with
    | none => .typeC
    | some sourceContent =>
      if sourceContent.typ = .dir then .typeC
      else
        match w.stat targetURL with
        | some targetContent =>
          if targetContent.typ = .dir then .typeB else .typeA
        | none => .typeA
  | _ => .typeD

/-- `checkCopySyntaxTypeA`: source and target must be valid file arguments. -/
def checkCopySyntaxTypeA (w : World) (srcURLs : List Str) (tgtURL : Str)
    (isMvCmd : Bool) : Outcome :=
  if srcURLs.length ≠ 1 then
    .rejected .invalidSourceCount "Invalid number of source arguments."
  else
    let srcURL := srcURLs.headD []
    match w.stat srcURL with
    | none =>
      .rejected .sourceStatFatal
        ("Unable to stat source `" ++ String.mk srcURL ++ "`.")
    | some srcContent =>
      if srcContent.typ ≠ .file then
        .rejected .sourceNotRegular
          ("Source `" ++ String.mk srcURL ++ "` is not a file.")
      else .accepted

/-- `checkCopySyntaxTypeB`: source must be a valid file and the target, when
it exists, a folder. -/
def checkCopySyntaxTypeB (w : World) (srcURLs : List Str) (tgtURL : Str)
    (isMvCmd : Bool) : Outcome :=
  if srcURLs.length ≠ 1 then
    .rejected .invalidSourceCount "Invalid number of source arguments."
  else
    let srcURL := srcURLs.headD []
    match w.stat srcURL with
    | none =>
      .rejected .sourceStatFatal
        ("Unable to stat source `" ++ String.mk srcURL ++ "`.")
    | some srcContent =>
      if srcContent.typ ≠ .file then
        .rejected .sourceNotRegular
          ("Source `" ++ String.mk srcURL ++ "` is not a file.")
      else
        match w.stat tgtURL with
        | some tgtContent =>
          if tgtContent.typ ≠ .dir then
            .rejected .targetNotFolder
              ("Target `" ++ String.mk tgtURL ++ "` is not a folder.")
          else .accepted
        | none => .accepted

/-- The per-source loop of `checkCopySyntaxTypeC`: a source whose stat fails
is tolerated (skipped) when `isURLPrefixExists` holds for it and fatal
otherwise; an existing directory source requires the recursive flag and must
not contain the target. -/
def checkTypeCSources (w : World) (srcURLs : List Str) (tgtURL : Str)
    (isRecursive isMvCmd : Bool) : Outcome :=
  match srcURLs with
  | [] => .accepted
  | srcURL :: rest =>
    match w.stat srcURL with
    | none =>
      if !w.prefixExists srcURL then
        .rejected .sourceStatFatal
          ("Unable to stat source `" ++ String.mk srcURL ++ "`.")
      else
        checkTypeCSources w rest tgtURL isRecursive isMvCmd
    | some srcContent =>
      if srcContent.typ = .dir then
        if !isRecursive then
          .rejected .recursiveRequired
            ("To " ++ (if isMvCmd then "move" else "copy") ++
              " a folder requires --recursive flag.")
        else if isURLContains srcURL tgtURL [srcContent.sep] then
          .rejected .selfContainment
            ((if isMvCmd then "Moving" else "Copying") ++
              " a folder into itself is not allowed.")
        else
          checkTypeCSources w rest tgtURL isRecursive isMvCmd
      else
        checkTypeCSources w rest tgtURL isRecursive isMvCmd

/-- `checkCopySyntaxTypeC`: source must be a valid recursive directory and
the target, when it exists, a folder. -/
def checkCopySyntaxTypeC (w : World) (srcURLs : List Str) (tgtURL : Str)
    (isRecursive isMvCmd : Bool) : Outcome :=
  if srcURLs.length ≠ 1 then
    .rejected .invalidSourceCount "Invalid number of source arguments."
  else
    match w.stat tgtURL with
    | some tgtContent =>
      if tgtContent.typ ≠ .dir then
        .rejected .targetNotFolder
          ("Target `" ++ String.mk tgtURL ++ "` is not a folder.")
      else
        checkTypeCSources w srcURLs tgtURL isRecursive isMvCmd
    | none =>
      checkTypeCSources w srcURLs tgtURL isRecursive isMvCmd

/-- `checkCopySyntaxTypeD`: sources can be anything; only the target is
checked — when it exists it must be a folder. -/
def checkCopySyntaxTypeD (w : World) (srcURLs : List Str) (tgtURL : Str)
    (isMvCmd : Bool) : Outcome :=
  match w.stat tgtURL with
  | some tgtContent =>
    if tgtContent.typ ≠ .dir then
      .rejected .targetNotFolder
        ("Target `" ++ String.mk tgtURL ++ "` is not a folder.")
    else .accepted
  | none => .accepted

/-- The tail of `checkCopySyntax` (its lines after the shape switch): when
the per-shape check passed, `--preserve` is refused on windows. -/
def afterShape (o : Outcome) (preserve : Bool) (goos : String) : Outcome :=
  match o with
  | .rejected r m => .rejected r m
  | .accepted =>
    if preserve ∧ goos = "windows" then
      .rejected .preserveUnsupported
        "Permissions are not preserved on windows platform."
    else .accepted

/-- The shape switch of `checkCopySyntax`: dispatch on the guessed shape to
the per-shape check; the `default:` arm reports an unguessable operation
type. -/
def dispatchShape (w : World) (srcURLs : List Str) (tgtURL : Str)
    (isRecursive isMvCmd : Bool) : Outcome :=
  match guessCopyURLType w srcURLs tgtURL isRecursive with
  | .typeA => checkCopySyntaxTypeA w srcURLs tgtURL isMvCmd
  | .typeB => checkCopySyntaxTypeB w srcURLs tgtURL isMvCmd
  | .typeC => checkCopySyntaxTypeC w srcURLs tgtURL isRecursive isMvCmd
  | .typeD => checkCopySyntaxTypeD w srcURLs tgtURL isMvCmd
  | .invalid =>
    .rejected .guessTypeFailure
      ("Unable to guess the type of " ++
        (if isMvCmd then "move" else "copy") ++ " operation.")

/-- `checkCopySyntax`: the whole validation pipeline.  `args` is the CLI
argument list (sources followed by the target), `rd` and `rm` the values of
the retention-duration and retention-mode flags, `goos` the value of
`runtime.GOOS`.  The duplicated `len(URLs) < 2` guard of the source (which
re-tests the condition of the first guard and is therefore unreachable) is
not repeated. -/
def checkCopySyntax (w : World) (args : List Str) (isRecursive : Bool)
    (rd rm : Str) (preserve : Bool) (goos : String) (isMvCmd : Bool) :
    Outcome :=
  if args.length < 2 then
    .rejected .showHelp (if isMvCmd then "mv" else "cp")
  else
    match args.dropLast.find? (fun s => (w.stat s).isNone) with
    | some srcURL =>
      .rejected .sourceStatFailure
        ("Unable to validate source " ++ String.mk srcURL ++ "\n")
    | none =>
      if (w.parseURL (args.getLastD [])).host ≠ [] ∧
          (w.parseURL (args.getLastD [])).path
            = [(w.parseURL (args.getLastD [])).sep] then
        .rejected .noBucketName
          ("Target `" ++ String.mk (args.getLastD []) ++
            "` does not contain bucket name.")
      else if rd ≠ [] ∧ rm = [] then
        .rejected .incompleteRetentionPair
          "Both object retention flags are required.\n"
      else if rd = [] ∧ rm ≠ [] then
        .rejected .incompleteRetentionPair
          "Both object retention flags are required.\n"
      else
        afterShape
          (dispatchShape w args.dropLast (args.getLastD []) isRecursive isMvCmd)
          preserve goos

/-- Reasons that the per-shape check functions can produce. -/
def Reason.fromShapeCheck : Reason → Bool
  | .invalidSourceCount => true
  | .sourceStatFatal => true
  | .sourceNotRegular => true
  | .targetNotFolder => true
  | .recursiveRequired => true
  | .selfContainment => true
  | _ => false

/-- A sample local world for concrete witnesses: a handful of paths with
known kinds, every unresolved path counted as a not-yet-existing prefix, and
a URL parser that yields no host (local paths carry no alias). -/
def wA : World where
  stat := fun s =>
    if s = str "/data/logs" then some ⟨.dir, '/'⟩
    else if s = str "/data" then some ⟨.dir, '/'⟩
    else if s = str "/d1" then some ⟨.dir, '/'⟩
    else if s = str "/d2" then some ⟨.dir, '/'⟩
    else if s = str "/a.txt" then some ⟨.file, '/'⟩
    else if s = str "/b.txt" then some ⟨.file, '/'⟩
    else if s = str "/existing-file" then some ⟨.file, '/'⟩
    else none
  prefixExists := fun _ => true
  parseURL := fun _ => ⟨[], [], '/'⟩

/-- A sample remote world: the same stat table as `wA`, but every URL parses
to host `alias` with a bare-separator path (no bucket name). -/
def wB : World where
  stat := wA.stat
  prefixExists := fun _ => true
  parseURL := fun _ => ⟨str "alias", str "/", '/'⟩

theorem strStartsWith_self (l : Str) : strStartsWith l l = true := by
  induction l with
  | nil => rfl
  | cons a as ih => simp [strStartsWith, ih]

theorem isURLContains_self (a sep : Str) : isURLContains a a sep = true := by
  unfold isURLContains
  by_cases h : strEndsWith a sep = true <;> simp [h, strStartsWith_self]

theorem guessCopyURLType_ne_invalid (w : World) (srcs : List Str) (tgt : Str)
    (rec : Bool) : guessCopyURLType w srcs tgt rec ≠ .invalid := by
  obtain _ | ⟨s, _ | ⟨s2, rest⟩⟩ := srcs
  · simp [guessCopyURLType]
  · simp only [guessCopyURLType]
    cases w.stat s with
    | none => simp
    | some sc =>
      by_cases hd : sc.typ = EntryType.dir
      · simp [hd]
      · cases w.stat tgt with
        | none => simp [hd]
        | some tc => by_cases htc : tc.typ = EntryType.dir <;> simp [hd, htc]
  · simp [guessCopyURLType]

theorem checkCopySyntaxTypeA_shape (w : World) (srcs : List Str) (tgt : Str)
    (mv : Bool) (r : Reason) (m : String)
    (h : checkCopySyntaxTypeA w srcs tgt mv = .rejected r m) :
    r.fromShapeCheck = true := by
  simp only [checkCopySyntaxTypeA] at h
  split at h
  · cases h; rfl
  · split at h
    · cases h; rfl
    · split at h
      · cases h; rfl
      · cases h

theorem checkCopySyntaxTypeB_shape (w : World) (srcs : List Str) (tgt : Str)
    (mv : Bool) (r : Reason) (m : String)
    (h : checkCopySyntaxTypeB w srcs tgt mv = .rejected r m) :
    r.fromShapeCheck = true := by
  simp only [checkCopySyntaxTypeB] at h
  split at h
  · cases h; rfl
  · split at h
    · cases h; rfl
    · split at h
      · cases h; rfl
      · split at h
        · split at h
          · cases h; rfl
          · cases h
        · cases h

theorem checkTypeCSources_shape (w : World) (srcs : List Str) (tgt : Str)
    (rec mv : Bool) (r : Reason) (m : String)
    (h : checkTypeCSources w srcs tgt rec mv = .rejected r m) :
    r.fromShapeCheck = true := by
  induction srcs with
  | nil => simp only [checkTypeCSources] at h; cases h
  | cons s rest ih =>
    simp only [checkTypeCSources] at h
    split at h
    · split at h
      · cases h; rfl
      · exact ih h
    · split at h
      · split at h
        · cases h; rfl
        · split at h
          · cases h; rfl
          · exact ih h
      · exact ih h

theorem checkCopySyntaxTypeC_shape (w : World) (srcs : List Str) (tgt : Str)
    (rec mv : Bool) (r : Reason) (m : String)
    (h : checkCopySyntaxTypeC w srcs tgt rec mv = .rejected r m) :
    r.fromShapeCheck = true := by
  simp only [checkCopySyntaxTypeC] at h
  split at h
  · cases h; rfl
  · split at h
    · split at h
      · cases h; rfl
      · exact checkTypeCSources_shape w srcs tgt rec mv r m h
    · exact checkTypeCSources_shape w srcs tgt rec mv r m h

theorem checkCopySyntaxTypeD_shape (w : World) (srcs : List Str) (tgt : Str)
    (mv : Bool) (r : Reason) (m : String)
    (h : checkCopySyntaxTypeD w srcs tgt mv = .rejected r m) :
    r.fromShapeCheck = true := by
  simp only [checkCopySyntaxTypeD] at h
  split at h
  · split at h
    · cases h; rfl
    · cases h
  · cases h

theorem dispatchShape_shape (w : World) (srcs : List Str) (tgt : Str)
    (rec mv : Bool) (r : Reason) (m : String)
    (h : dispatchShape w srcs tgt rec mv = .rejected r m) :
    r.fromShapeCheck = true := by
  rw [dispatchShape] at h
  cases hg : guessCopyURLType w srcs tgt rec with
  | typeA => rw [hg] at h; exact checkCopySyntaxTypeA_shape w srcs tgt mv r m h
  | typeB => rw [hg] at h; exact checkCopySyntaxTypeB_shape w srcs tgt mv r m h
  | typeC => rw [hg] at h; exact checkCopySyntaxTypeC_shape w srcs tgt rec mv r m h
  | typeD => rw [hg] at h; exact checkCopySyntaxTypeD_shape w srcs tgt mv r m h
  | invalid => exact absurd hg (guessCopyURLType_ne_invalid w srcs tgt rec)

theorem afterShape_reason_cases (o : Outcome) (p : Bool) (g : String) :
    (afterShape o p g).reason = o.reason
    ∨ (afterShape o p g).reason = some .preserveUnsupported := by
  cases o with
  | rejected r m => left; rfl
  | accepted =>
    rw [afterShape]
    split
    · right; rfl
    · left; rfl

theorem afterShape_reason_congr (a b : Outcome) (p : Bool) (g : String)
    (h : a.reason = b.reason) :
    (afterShape a p g).reason = (afterShape b p g).reason := by
  cases a with
  | accepted =>
    cases b with
    | accepted => rfl
    | rejected r m => simp [Outcome.reason] at h
  | rejected r m =>
    cases b with
    | accepted => simp [Outcome.reason] at h
    | rejected r2 m2 =>
      simp only [Outcome.reason, Option.some.injEq] at h
      simp [afterShape, Outcome.reason, h]

theorem checkTypeCSources_mv (w : World) (srcs : List Str) (tgt : Str)
    (rec mv mv2 : Bool) :
    (checkTypeCSources w srcs tgt rec mv).reason
      = (checkTypeCSources w srcs tgt rec mv2).reason := by
  induction srcs with
  | nil => rfl
  | cons s rest ih =>
    rw [checkTypeCSources, checkTypeCSources]
    cases w.stat s with
    | none =>
      dsimp only
      cases hp : w.prefixExists s
      · simp [Outcome.reason]
      · rw [if_neg (show ¬((!true) = true) by simp),
          if_neg (show ¬((!true) = true) by simp)]
        exact ih
    | some sc =>
      dsimp only
      by_cases hd : sc.typ = EntryType.dir
      · rw [if_pos hd, if_pos hd]
        cases rec with
        | false => simp [Outcome.reason]
        | true =>
          rw [if_neg (show ¬((!true) = true) by simp),
            if_neg (show ¬((!true) = true) by simp)]
          by_cases hc : isURLContains s tgt [sc.sep] = true
          · simp [hc, Outcome.reason]
          · rw [if_neg hc, if_neg hc]
            exact ih
      · rw [if_neg hd, if_neg hd]
        exact ih

theorem checkCopySyntaxTypeC_mv (w : World) (srcs : List Str) (tgt : Str)
    (rec mv mv2 : Bool) :
    (checkCopySyntaxTypeC w srcs tgt rec mv).reason
      = (checkCopySyntaxTypeC w srcs tgt rec mv2).reason := by
  rw [checkCopySyntaxTypeC, checkCopySyntaxTypeC]
  by_cases h1 : srcs.length ≠ 1
  · simp [h1, Outcome.reason]
  · rw [if_neg h1, if_neg h1]
    cases w.stat tgt with
    | none => exact checkTypeCSources_mv w srcs tgt rec mv mv2
    | some tc =>
      dsimp only
      by_cases htc : tc.typ ≠ EntryType.dir
      · simp [htc, Outcome.reason]
      · rw [if_neg htc, if_neg htc]
        exact checkTypeCSources_mv w srcs tgt rec mv mv2

theorem dispatchShape_mv (w : World) (srcs : List Str) (tgt : Str)
    (rec mv mv2 : Bool) :
    (dispatchShape w srcs tgt rec mv).reason
      = (dispatchShape w srcs tgt rec mv2).reason := by
  rw [dispatchShape, dispatchShape]
  cases guessCopyURLType w srcs tgt rec with
  | typeA => rfl
  | typeB => rfl
  | typeC => exact checkCopySyntaxTypeC_mv w srcs tgt rec mv mv2
  | typeD => rfl
  | invalid => rfl

theorem checkCopySyntax_shape_stage (w : World) (args : List Str) (rec : Bool)
    (rd rm : Str) (p : Bool) (g : String) (mv : Bool)
    (h2 : ¬args.length < 2)
    (hf : args.dropLast.find? (fun s => (w.stat s).isNone) = none)
    (hb : ¬((w.parseURL (args.getLastD [])).host ≠ [] ∧
        (w.parseURL (args.getLastD [])).path
          = [(w.parseURL (args.getLastD [])).sep]))
    (hr1 : ¬(rd ≠ [] ∧ rm = []))
    (hr2 : ¬(rd = [] ∧ rm ≠ [])) :
    checkCopySyntax w args rec rd rm p g mv
      = afterShape (dispatchShape w args.dropLast (args.getLastD []) rec mv)
          p g := by
  rw [checkCopySyntax, if_neg h2]
  simp only [hf]
  rw [if_neg hb, if_neg hr1, if_neg hr2]

theorem checkCopySyntax_no_guessTypeFailure (w : World) (args : List Str)
    (rec : Bool) (rd rm : Str) (p : Bool) (g : String) (mv : Bool) :
    (checkCopySyntax w args rec rd rm p g mv).reason ≠ some .guessTypeFailure := by
  intro hr
  rw [checkCopySyntax] at hr
  by_cases h2 : args.length < 2
  · rw [if_pos h2] at hr
    simp [Outcome.reason] at hr
  · rw [if_neg h2] at hr
    rcases hfind : args.dropLast.find? (fun s => (w.stat s).isNone) with _ | s
    · rw [hfind] at hr
      dsimp only at hr
      by_cases hb : (w.parseURL (args.getLastD [])).host ≠ [] ∧
          (w.parseURL (args.getLastD [])).path
            = [(w.parseURL (args.getLastD [])).sep]
      · rw [if_pos hb] at hr
        simp [Outcome.reason] at hr
      · rw [if_neg hb] at hr
        by_cases hr1 : rd ≠ [] ∧ rm = []
        · rw [if_pos hr1] at hr
          simp [Outcome.reason] at hr
        · rw [if_neg hr1] at hr
          by_cases hr2 : rd = [] ∧ rm ≠ []
          · rw [if_pos hr2] at hr
            simp [Outcome.reason] at hr
          · rw [if_neg hr2] at hr
            rcases afterShape_reason_cases
                (dispatchShape w args.dropLast (args.getLastD []) rec mv) p g with
              hca | hca
            · rw [hca] at hr
              rcases hdd : dispatchShape w args.dropLast (args.getLastD []) rec mv with
                _ | ⟨r, m⟩
              · rw [hdd] at hr
                simp [Outcome.reason] at hr
              · rw [hdd] at hr
                simp only [Outcome.reason, Option.some.injEq] at hr
                have hshape := dispatchShape_shape w args.dropLast
                  (args.getLastD []) rec mv r m hdd
                rw [hr] at hshape
                cases hshape
            · rw [hca] at hr
              simp at hr
    · rw [hfind] at hr
      simp [Outcome.reason] at hr

theorem checkCopySyntax_mv_reason (w : World) (args : List Str) (rec : Bool)
    (rd rm : Str) (p : Bool) (g : String) (mv mv2 : Bool) :
    (checkCopySyntax w args rec rd rm p g mv).reason
      = (checkCopySyntax w args rec rd rm p g mv2).reason := by
  rw [checkCopySyntax, checkCopySyntax]
  by_cases h2 : args.length < 2
  · rw [if_pos h2, if_pos h2]
    rfl
  · rw [if_neg h2, if_neg h2]
    rcases hfind : args.dropLast.find? (fun s => (w.stat s).isNone) with _ | s
    · dsimp only
      by_cases hb : (w.parseURL (args.getLastD [])).host ≠ [] ∧
          (w.parseURL (args.getLastD [])).path
            = [(w.parseURL (args.getLastD [])).sep]
      · rw [if_pos hb, if_pos hb]
      · rw [if_neg hb, if_neg hb]
        by_cases hr1 : rd ≠ [] ∧ rm = []
        · rw [if_pos hr1, if_pos hr1]
        · rw [if_neg hr1, if_neg hr1]
          by_cases hr2 : rd = [] ∧ rm ≠ []
          · rw [if_pos hr2, if_pos hr2]
          · rw [if_neg hr2, if_neg hr2]
            exact afterShape_reason_congr _ _ p g
              (dispatchShape_mv w args.dropLast (args.getLastD []) rec mv mv2)
    · rfl

theorem checkTypeCSources_reasons (w : World) (srcs : List Str) (tgt : Str)
    (rec mv : Bool) (r : Reason) (m : String)
    (h : checkTypeCSources w srcs tgt rec mv = .rejected r m) :
    r = .sourceStatFatal ∨ r = .recursiveRequired ∨ r = .selfContainment := by
  induction srcs with
  | nil => simp only [checkTypeCSources] at h; cases h
  | cons s rest ih =>
    simp only [checkTypeCSources] at h
    split at h
    · split at h
      · cases h; exact Or.inl rfl
      · exact ih h
    · split at h
      · split at h
        · cases h; exact Or.inr (Or.inl rfl)
        · split at h
          · cases h; exact Or.inr (Or.inr rfl)
          · exact ih h
      · exact ih h

theorem checkCopySyntaxTypeC_single (w : World) (srcs : List Str) (tgt : Str)
    (rec mv : Bool) (hlen : srcs.length = 1)
    (ht : ∀ tc, w.stat tgt = some tc → tc.typ = EntryType.dir) :
    checkCopySyntaxTypeC w srcs tgt rec mv
      = checkTypeCSources w srcs tgt rec mv := by
  rw [checkCopySyntaxTypeC, if_neg (by simp [hlen])]
  rcases htg : w.stat tgt with _ | tc
  · rfl
  · dsimp only
    rw [if_neg (show ¬(tc.typ ≠ EntryType.dir) by simp [ht tc htg])]

theorem typeC_dir_recursiveRequired (w : World) (srcURL tgt : Str) (mv : Bool)
    (c : StatResult) (hs : w.stat srcURL = some c)
    (hd : c.typ = EntryType.dir)
    (ht : ∀ tc, w.stat tgt = some tc → tc.typ = EntryType.dir) :
    (checkCopySyntaxTypeC w [srcURL] tgt false mv).reason
      = some .recursiveRequired := by
  rw [checkCopySyntaxTypeC_single w [srcURL] tgt false mv rfl ht,
    checkTypeCSources]
  simp only [hs]
  rw [if_pos hd, if_pos (show (!false) = true by simp)]
  rfl

theorem typeC_dir_selfContainment (w : World) (srcURL tgt : Str) (mv : Bool)
    (c : StatResult) (hs : w.stat srcURL = some c)
    (hd : c.typ = EntryType.dir)
    (ht : ∀ tc, w.stat tgt = some tc → tc.typ = EntryType.dir)
    (hc : isURLContains srcURL tgt [c.sep] = true) :
    (checkCopySyntaxTypeC w [srcURL] tgt true mv).reason
      = some .selfContainment := by
  rw [checkCopySyntaxTypeC_single w [srcURL] tgt true mv rfl ht,
    checkTypeCSources]
  simp only [hs]
  rw [if_pos hd, if_neg (show ¬((!true) = true) by simp), if_pos hc]
  rfl

theorem typeC_dir_accepts (w : World) (srcURL tgt : Str) (mv : Bool)
    (c : StatResult) (hs : w.stat srcURL = some c)
    (hd : c.typ = EntryType.dir)
    (ht : ∀ tc, w.stat tgt = some tc → tc.typ = EntryType.dir)
    (hc : isURLContains srcURL tgt [c.sep] = false) :
    checkCopySyntaxTypeC w [srcURL] tgt true mv = .accepted := by
  rw [checkCopySyntaxTypeC_single w [srcURL] tgt true mv rfl ht,
    checkTypeCSources]
  simp only [hs]
  rw [if_pos hd, if_neg (show ¬((!true) = true) by simp),
    if_neg (show ¬(isURLContains srcURL tgt [c.sep] = true) by simp [hc])]
  rfl

theorem concat_length_two (srcs : List Str) (tgt : Str) (hne : srcs ≠ []) :
    ¬((srcs ++ [tgt]).length < 2) := by
  rcases srcs with _ | ⟨a, l⟩
  · exact absurd rfl hne
  · simp

theorem find?_isNone_eq_none (w : World) (srcs : List Str)
    (hstat : ∀ s ∈ srcs, (w.stat s).isSome = true) :
    srcs.find? (fun s => (w.stat s).isNone) = none := by
  rw [List.find?_eq_none]
  intro x hx
  have h := hstat x hx
  rcases hw : w.stat x with _ | v
  · rw [hw] at h; simp at h
  · simp [hw]

theorem afterShape_dispatch_reasons (w : World) (srcs : List Str) (tgt : Str)
    (rec mv : Bool) (p : Bool) (g : String) (r : Reason)
    (h : (afterShape (dispatchShape w srcs tgt rec mv) p g).reason = some r) :
    r.fromShapeCheck = true ∨ r = .preserveUnsupported := by
  rcases afterShape_reason_cases (dispatchShape w srcs tgt rec mv) p g with
    hca | hca
  · rw [hca] at h
    rcases hdd : dispatchShape w srcs tgt rec mv with _ | ⟨r2, m⟩
    · rw [hdd] at h; simp [Outcome.reason] at h
    · rw [hdd] at h
      simp only [Outcome.reason, Option.some.injEq] at h
      rw [← h]
      exact Or.inl (dispatchShape_shape w srcs tgt rec mv r2 m hdd)
  · rw [hca] at h
    simp only [Option.some.injEq] at h
    exact Or.inr h.symm

/-- Claim C1: the TreeToFolder tolerance of a missing source never takes
effect in the pipeline.  With a single source whose stat fails but which
exists as a prefix, the guessed shape is TreeToFolder and the TreeToFolder
check on its own accepts (source skipped for transfer), yet `checkCopySyntax`
rejects at its pre-classification source-verification loop, so the outcome
is not Accepted as the claim requires. -/
theorem treeToFolder_missing_source_fatal_in_pipeline :
    guessCopyURLType wA [str "/missing"] (str "/backup") true = .typeC
    ∧ checkCopySyntaxTypeC wA [str "/missing"] (str "/backup") true false
        = .accepted
    ∧ (checkCopySyntax wA [str "/missing", str "/backup"] true [] [] false
        "linux" false).reason = some .sourceStatFailure := by
  refine ⟨by decide, by decide, by decide⟩

/-- Claim C2 counterexample: a two-directory-source request without the
recursive flag is Accepted end to end (the ManyToFolder check performs no
per-source checks), although the per-source TreeToFolder directory rule —
which the claim says is applied to each directory source — rejects that very
source with RecursiveRequired. -/
theorem manyToFolder_per_source_rule_cex :
    guessCopyURLType wA [str "/d1", str "/d2"] (str "/t") false = .typeD
    ∧ checkCopySyntax wA [str "/d1", str "/d2", str "/t"] false [] [] false
        "linux" false = .accepted
    ∧ (checkCopySyntaxTypeC wA [str "/d1"] (str "/t") false false).reason
        = some .recursiveRequired := by
  refine ⟨by decide, by decide, by decide⟩

/-- Claim C2 (amended): a ManyToFolder request is validated by the target
rule alone — the outcome of `checkCopySyntaxTypeD` is independent of the
source list and of the move flag, and its only possible rejection is
TargetNotFolder; no per-source directory rule is applied. -/
theorem manyToFolder_target_check_only (w : World) (srcs srcs2 : List Str)
    (tgt : Str) (mv mv2 : Bool) :
    checkCopySyntaxTypeD w srcs tgt mv = checkCopySyntaxTypeD w srcs2 tgt mv2
    ∧ ∀ r m, checkCopySyntaxTypeD w srcs tgt mv = .rejected r m →
        r = .targetNotFolder := by
  refine ⟨rfl, fun r m h => ?_⟩
  simp only [checkCopySyntaxTypeD] at h
  split at h
  · split at h
    · cases h; rfl
    · cases h
  · cases h

theorem manyToFolder_target_check_only_witness :
    Reason.targetNotFolder = .targetNotFolder :=
  (manyToFolder_target_check_only wA [str "/a.txt"] [] (str "/existing-file")
    false true).2 .targetNotFolder
    ("Target `" ++ String.mk (str "/existing-file") ++ "` is not a folder.")
    (by decide)

/-- Claim C3: classification is total — for every non-empty source list the
classifier yields one of the four shapes and never the invalid tag, and the
pipeline never rejects for an unguessable operation type: illegality is
reported only by the validators. -/
theorem classification_never_fails :
    (∀ (w : World) (srcs : List Str) (tgt : Str) (rec : Bool), srcs ≠ [] →
      guessCopyURLType w srcs tgt rec ≠ .invalid)
    ∧ ∀ (w : World) (args : List Str) (rec : Bool) (rd rm : Str) (p : Bool)
        (g : String) (mv : Bool),
        (checkCopySyntax w args rec rd rm p g mv).reason
          ≠ some .guessTypeFailure :=
  ⟨fun w srcs tgt rec _ => guessCopyURLType_ne_invalid w srcs tgt rec,
   fun w args rec rd rm p g mv =>
     checkCopySyntax_no_guessTypeFailure w args rec rd rm p g mv⟩

theorem classification_never_fails_witness :
    guessCopyURLType wA [str "/a.txt"] (str "/t") false ≠ .invalid
    ∧ (checkCopySyntax wA [str "/a.txt", str "/t"] false [] [] false "linux"
        false).reason ≠ some .guessTypeFailure :=
  ⟨classification_never_fails.1 wA [str "/a.txt"] (str "/t") false (by decide),
   classification_never_fails.2 wA [str "/a.txt", str "/t"] false [] [] false
     "linux" false⟩

/-- Claim C4: for a TreeToFolder request whose single source exists as a
directory, with the recursive flag set and the target not an existing
non-folder: when the source equals or contains the target under the
containment predicate the validator rejects with SelfContainment, and
otherwise the containment check passes and the check accepts. -/
theorem treeToFolder_self_containment_rule (w : World) (srcURL tgtURL : Str)
    (mv : Bool) (c : StatResult)
    (hs : w.stat srcURL = some c) (hd : c.typ = EntryType.dir)
    (ht : ∀ tc, w.stat tgtURL = some tc → tc.typ = EntryType.dir) :
    (isURLContains srcURL tgtURL [c.sep] = true →
      (checkCopySyntaxTypeC w [srcURL] tgtURL true mv).reason
        = some .selfContainment)
    ∧ (isURLContains srcURL tgtURL [c.sep] = false →
      checkCopySyntaxTypeC w [srcURL] tgtURL true mv = .accepted) :=
  ⟨fun hc => typeC_dir_selfContainment w srcURL tgtURL mv c hs hd ht hc,
   fun hc => typeC_dir_accepts w srcURL tgtURL mv c hs hd ht hc⟩

theorem treeToFolder_self_containment_rule_witness :
    (checkCopySyntaxTypeC wA [str "/data/logs"] (str "/data/logs/archive")
      true false).reason = some .selfContainment :=
  (treeToFolder_self_containment_rule wA (str "/data/logs")
    (str "/data/logs/archive") false ⟨.dir, '/'⟩ (by decide) rfl
    (fun tc hcontra => by
      rw [show wA.stat (str "/data/logs/archive") = none by decide] at hcontra
      exact Option.noConfusion hcontra)).1 (by decide)

/-- Claim C5: for a TreeToFolder request whose single source exists as a
directory and whose target is not an existing non-folder: without the
recursive flag the validator rejects with RecursiveRequired; with the flag
set and a non-contained target the check accepts. -/
theorem treeToFolder_recursive_flag_rule (w : World) (srcURL tgtURL : Str)
    (mv : Bool) (c : StatResult)
    (hs : w.stat srcURL = some c) (hd : c.typ = EntryType.dir)
    (ht : ∀ tc, w.stat tgtURL = some tc → tc.typ = EntryType.dir) :
    (checkCopySyntaxTypeC w [srcURL] tgtURL false mv).reason
      = some .recursiveRequired
    ∧ (isURLContains srcURL tgtURL [c.sep] = false →
      checkCopySyntaxTypeC w [srcURL] tgtURL true mv = .accepted) :=
  ⟨typeC_dir_recursiveRequired w srcURL tgtURL mv c hs hd ht,
   fun hc => typeC_dir_accepts w srcURL tgtURL mv c hs hd ht hc⟩

theorem treeToFolder_recursive_flag_rule_witness :
    (checkCopySyntaxTypeC wA [str "/data"] (str "/backup") false false).reason
      = some .recursiveRequired
    ∧ checkCopySyntaxTypeC wA [str "/data"] (str "/backup") true false
      = .accepted := by
  have h := treeToFolder_recursive_flag_rule wA (str "/data") (str "/backup")
    false ⟨.dir, '/'⟩ (by decide) rfl
    (fun tc hcontra => by
      rw [show wA.stat (str "/backup") = none by decide] at hcontra
      exact Option.noConfusion hcontra)
  exact ⟨h.1, h.2 (by decide)⟩

/-- Claim C6: the containment predicate treats identical paths as contained
(reflexivity, for every path, with separator the slash), sees `/a/b` as
containing `/a/b/c`, and does not treat the raw-substring pair `/a/bc`,
`/a/b` as containment: the prefix respects separator boundaries. -/
theorem isURLContains_containment_spec :
    (∀ a : Str, isURLContains a a (str "/") = true)
    ∧ isURLContains (str "/a/b") (str "/a/b/c") (str "/") = true
    ∧ isURLContains (str "/a/bc") (str "/a/b") (str "/") = false :=
  ⟨fun a => isURLContains_self a (str "/"), by decide, by decide⟩

/-- Claim C7: with every source resolvable and the target carrying a bucket
name, a request with exactly one of the two retention flag values set is
rejected with IncompleteRetentionPair regardless of shape, while a request
with both or neither set is never rejected for that reason. -/
theorem retention_pair_rule (w : World) (srcs : List Str) (tgt : Str)
    (rec : Bool) (rd rm : Str) (p : Bool) (g : String) (mv : Bool)
    (hne : srcs ≠ [])
    (hstat : ∀ s ∈ srcs, (w.stat s).isSome = true)
    (hb : ¬((w.parseURL tgt).host ≠ []
      ∧ (w.parseURL tgt).path = [(w.parseURL tgt).sep])) :
    (((rd ≠ [] ∧ rm = []) ∨ (rd = [] ∧ rm ≠ [])) →
      (checkCopySyntax w (srcs ++ [tgt]) rec rd rm p g mv).reason
        = some .incompleteRetentionPair)
    ∧ ((rd = [] ↔ rm = []) →
      (checkCopySyntax w (srcs ++ [tgt]) rec rd rm p g mv).reason
        ≠ some .incompleteRetentionPair) := by
  have hlen := concat_length_two srcs tgt hne
  have hfind := find?_isNone_eq_none w srcs hstat
  constructor
  · intro hone
    rw [checkCopySyntax, if_neg hlen]
    simp only [List.dropLast_concat, List.getLastD_concat, hfind]
    rw [if_neg hb]
    rcases hone with ⟨h1, h2⟩ | ⟨h1, h2⟩
    · rw [if_pos ⟨h1, h2⟩]
      rfl
    · rw [if_neg (fun hcon => hcon.1 h1), if_pos ⟨h1, h2⟩]
      rfl
  · intro hiff
    have hr1 : ¬(rd ≠ [] ∧ rm = []) := fun hcon => hcon.1 (hiff.mpr hcon.2)
    have hr2 : ¬(rd = [] ∧ rm ≠ []) := fun hcon => hcon.2 (hiff.mp hcon.1)
    have hstage := checkCopySyntax_shape_stage w (srcs ++ [tgt]) rec rd rm p g
      mv hlen (by rw [List.dropLast_concat]; exact hfind)
      (by rw [List.getLastD_concat]; exact hb) hr1 hr2
    rw [hstage, List.dropLast_concat, List.getLastD_concat]
    intro hr
    rcases afterShape_dispatch_reasons w srcs tgt rec mv p g
      .incompleteRetentionPair hr with hsr | hsr
    · simp [Reason.fromShapeCheck] at hsr
    · cases hsr

theorem retention_pair_rule_witness :
    (checkCopySyntax wA [str "/a.txt", str "/t"] false [] (str "COMPLIANCE")
      false "linux" false).reason = some .incompleteRetentionPair
    ∧ (checkCopySyntax wA [str "/a.txt", str "/t"] false (str "30d")
      (str "COMPLIANCE") false "linux" false).reason
        ≠ some .incompleteRetentionPair := by
  have h := retention_pair_rule wA [str "/a.txt"] (str "/t") false []
    (str "COMPLIANCE") false "linux" false (by decide) (by decide) (by decide)
  have h2 := retention_pair_rule wA [str "/a.txt"] (str "/t") false
    (str "30d") (str "COMPLIANCE") false "linux" false (by decide) (by decide)
    (by decide)
  exact ⟨h.1 (Or.inr ⟨rfl, by decide⟩), h2.2 (by decide)⟩

/-- Claim C8: for the three folder-target shapes — FileToFolder,
TreeToFolder and ManyToFolder — an existing non-directory target is rejected
with TargetNotFolder (for FileToFolder, once its source checks pass), and a
missing target passes the target check: FileToFolder and ManyToFolder then
accept outright, and TreeToFolder can no longer reject for TargetNotFolder. -/
theorem folder_target_rule (w : World) (srcURL tgtURL : Str) (mv rec : Bool) :
    (∀ c, w.stat srcURL = some c → c.typ = EntryType.file →
      (∀ tc, w.stat tgtURL = some tc → tc.typ ≠ EntryType.dir →
        (checkCopySyntaxTypeB w [srcURL] tgtURL mv).reason
          = some .targetNotFolder)
      ∧ (w.stat tgtURL = none →
        checkCopySyntaxTypeB w [srcURL] tgtURL mv = .accepted))
    ∧ ((∀ tc, w.stat tgtURL = some tc → tc.typ ≠ EntryType.dir →
        (checkCopySyntaxTypeC w [srcURL] tgtURL rec mv).reason
          = some .targetNotFolder)
      ∧ (w.stat tgtURL = none →
        (checkCopySyntaxTypeC w [srcURL] tgtURL rec mv).reason
          ≠ some .targetNotFolder))
    ∧ ∀ srcs : List Str,
      (∀ tc, w.stat tgtURL = some tc → tc.typ ≠ EntryType.dir →
        (checkCopySyntaxTypeD w srcs tgtURL mv).reason = some .targetNotFolder)
      ∧ (w.stat tgtURL = none →
        checkCopySyntaxTypeD w srcs tgtURL mv = .accepted) := by
  refine ⟨fun c hs hf => ⟨fun tc htc hntc => ?_, fun htn => ?_⟩,
    ⟨fun tc htc hntc => ?_, fun htn hr => ?_⟩,
    fun srcs => ⟨fun tc htc hntc => ?_, fun htn => ?_⟩⟩
  · rw [checkCopySyntaxTypeB, if_neg (by simp)]
    simp only [List.headD_cons, hs]
    rw [if_neg (show ¬(c.typ ≠ EntryType.file) by simp [hf])]
    simp only [htc]
    rw [if_pos hntc]
    rfl
  · rw [checkCopySyntaxTypeB, if_neg (by simp)]
    simp only [List.headD_cons, hs]
    rw [if_neg (show ¬(c.typ ≠ EntryType.file) by simp [hf])]
    simp only [htn]
  · rw [checkCopySyntaxTypeC, if_neg (by simp)]
    simp only [htc]
    rw [if_pos hntc]
    rfl
  · rw [checkCopySyntaxTypeC, if_neg (by simp)] at hr
    simp only [htn] at hr
    rcases hout : checkTypeCSources w [srcURL] tgtURL rec mv with _ | ⟨r, m⟩
    · rw [hout] at hr
      simp [Outcome.reason] at hr
    · rw [hout] at hr
      simp only [Outcome.reason, Option.some.injEq] at hr
      rcases checkTypeCSources_reasons w [srcURL] tgtURL rec mv r m hout with
        h1 | h1 | h1 <;> rw [h1] at hr <;> cases hr
  · rw [checkCopySyntaxTypeD]
    simp only [htc]
    rw [if_pos hntc]
    rfl
  · rw [checkCopySyntaxTypeD]
    simp only [htn]

theorem folder_target_rule_witness :
    (checkCopySyntaxTypeB wA [str "/a.txt"] (str "/existing-file")
      false).reason = some .targetNotFolder
    ∧ checkCopySyntaxTypeB wA [str "/a.txt"] (str "/t") false = .accepted
    ∧ checkCopySyntaxTypeD wA [str "/a.txt", str "/b.txt"] (str "/t") false
      = .accepted := by
  have h := folder_target_rule wA (str "/a.txt") (str "/existing-file")
    false false
  have h2 := folder_target_rule wA (str "/a.txt") (str "/t") false false
  exact ⟨(h.1 ⟨.file, '/'⟩ (by decide) rfl).1 ⟨.file, '/'⟩ (by decide)
      (by decide),
    (h2.1 ⟨.file, '/'⟩ (by decide) rfl).2 (by decide),
    (h2.2.2 [str "/a.txt", str "/b.txt"]).2 (by decide)⟩

/-- Claim C9: the move flag changes only the wording of messages — for
identical sources, target, flags, stat facts and platform, the accept/reject
decision and the rejection reason of the pipeline are the same for move and
copy. -/
theorem isMove_changes_only_wording (w : World) (args : List Str)
    (rec : Bool) (rd rm : Str) (p : Bool) (g : String) :
    (checkCopySyntax w args rec rd rm p g true).reason
      = (checkCopySyntax w args rec rd rm p g false).reason :=
  checkCopySyntax_mv_reason w args rec rd rm p g true false

/-- Claim C10 counterexample: a target whose parsed URL has a non-empty host
and a bare-separator path, combined with a source list whose source fails to
stat: the pipeline rejects at the source-verification loop with the
source-validation error, not with the no-bucket-name invalid-argument error
the claim requires for all source lists. -/
theorem bucket_name_not_first_cex :
    (wB.parseURL (str "alias/")).host ≠ []
    ∧ (wB.parseURL (str "alias/")).path = [(wB.parseURL (str "alias/")).sep]
    ∧ (checkCopySyntax wB [str "/missing", str "alias/"] false [] [] false
        "linux" false).reason = some .sourceStatFailure
    ∧ (checkCopySyntax wB [str "/missing", str "alias/"] false [] [] false
        "linux" false).reason ≠ some .noBucketName := by
  refine ⟨by decide, by decide, by decide, by decide⟩

/-- Claim C10 (amended): for every request whose sources all stat
successfully and whose target URL parses to a non-empty host with a
bare-separator path, the pipeline rejects with the no-bucket-name
invalid-argument error, for all flag combinations and before classification
or any per-shape validation runs. -/
theorem bucket_name_rule (w : World) (srcs : List Str) (tgt : Str)
    (rec : Bool) (rd rm : Str) (p : Bool) (g : String) (mv : Bool)
    (hne : srcs ≠ [])
    (hstat : ∀ s ∈ srcs, (w.stat s).isSome = true)
    (hhost : (w.parseURL tgt).host ≠ [])
    (hpath : (w.parseURL tgt).path = [(w.parseURL tgt).sep]) :
    (checkCopySyntax w (srcs ++ [tgt]) rec rd rm p g mv).reason
      = some .noBucketName := by
  rw [checkCopySyntax, if_neg (concat_length_two srcs tgt hne)]
  simp only [List.dropLast_concat, List.getLastD_concat,
    find?_isNone_eq_none w srcs hstat]
  rw [if_pos ⟨hhost, hpath⟩]
  rfl

theorem bucket_name_rule_witness :
    (checkCopySyntax wB [str "/a.txt", str "alias/"] false [] [] false
      "linux" true).reason = some .noBucketName :=
  bucket_name_rule wB [str "/a.txt"] (str "alias/") false [] [] false "linux"
    true (by decide) (by decide) (by decide) (by decide)

end MC
